import Mathlib

/-!
Verification of the menu_api sync service (src/index.js, src/db.js).

The repository file src/index.js contains two concatenated variants of the
server.  Variant A (first half): fire-and-forget POST /sync handler,
normalizing hours transformer (normalizeSheetTime), header-name-mapped
location transformer.  Variant B (second half): awaited POST /sync handler
returning 400 on unknown sheets, raw-value hours transformer, label/value
location transformer.  The menu transformer is verbatim identical in both
variants.  Suffixes A and B on definitions below track the variant.

Database tables are modelled as lists of rows in insertion order; SQL
DELETE ... WHERE business_id = $1 is list filtering, INSERT is appending,
and INSERT ... ON CONFLICT (business_id) DO UPDATE is an upsert that
updates the matching row in place (the unique constraint on business_id is
carried as a hypothesis where row counts matter).
-/

/-- One decimal digit character; chosen by the value of n modulo 10. -/
def digitChar (n : Nat) : Char :=
  match n % 10 with
  | 0 => '0'
  | 1 => '1'
  | 2 => '2'
  | 3 => '3'
  | 4 => '4'
  | 5 => '5'
  | 6 => '6'
  | 7 => '7'
  | 8 => '8'
  | _ => '9'

/-- Decimal digits of a natural number, most significant first; fueled
recursion (fuel n + 1 always suffices). -/
def natDigits (fuel n : Nat) : List Char :=
  match fuel with
  | 0 => []
  | fuel + 1 => if n < 10 then [digitChar n] else natDigits fuel (n / 10) ++ [digitChar (n % 10)]

/-- Decimal rendering of a natural number. -/
def natStr (n : Nat) : String :=
  String.mk (natDigits (n + 1) n)

/-- Model of JavaScript String(h).padStart(2, "0") for h below 100:
two-digit zero-padded rendering. -/
def pad2 (n : Nat) : String :=
  if n < 10 then "0" ++ natStr n else natStr n

/-- Decimal digits of the fractional part of a rational in [0, 1);
fueled (the model truncates after fuel digits, mirroring the bounded
precision of JavaScript number printing). -/
def fracDigits (fuel : Nat) (q : ℚ) : List Char :=
  match fuel with
  | 0 => []
  | fuel + 1 =>
    if q = 0 then []
    else digitChar (q * 10).floor.toNat :: fracDigits fuel (q * 10 - ((q * 10).floor : ℚ))

/-- Decimal rendering of a nonnegative rational. -/
def ratStrNN (q : ℚ) : String :=
  if q - (q.floor : ℚ) = 0 then natStr q.floor.toNat
  else natStr q.floor.toNat ++ "." ++ String.mk (fracDigits 17 (q - (q.floor : ℚ)))

/-- Model of JavaScript String(number): sign followed by decimal digits. -/
def ratStr (q : ℚ) : String :=
  if q < 0 then "-" ++ ratStrNN (-q) else ratStrNN q

/-- Model of JavaScript s.toUpperCase(): character-wise upper casing. -/
def upperStr (s : String) : String :=
  String.mk (s.data.map Char.toUpper)

/-- Model of JavaScript s.toLowerCase(): character-wise lower casing. -/
def lowerStr (s : String) : String :=
  String.mk (s.data.map Char.toLower)

/-- Model of JavaScript s.trim(): strip leading and trailing whitespace. -/
def jsTrim (s : String) : String :=
  String.mk (((s.data.dropWhile Char.isWhitespace).reverse.dropWhile Char.isWhitespace).reverse)

/-- Model of JavaScript s.slice(0, n): the first n characters. -/
def takeStr (s : String) (n : Nat) : String :=
  String.mk (s.data.take n)

/-- A spreadsheet cell as delivered in the JSON /sync payload: string,
number, boolean or null.  The date constructor models a native Date value
(only reachable for in-process callers, kept because normalizeSheetTime
handles it); it carries the hour and minute that getHours()/getMinutes()
return, which on the UTC-configured deployment equal the UTC time. -/
inductive Cell where
  | str (s : String)
  | num (q : ℚ)
  | bool (b : Bool)
  | date (h m : Nat)
  | null
deriving DecidableEq

/-- JavaScript truthiness of a cell ("" is falsy, 0 is falsy, false and
null are falsy, everything else truthy). -/
def truthy : Cell → Bool
  | .str s => s ≠ ""
  | .num q => q ≠ 0
  | .bool b => b
  | .date _ _ => true
  | .null => false

/-- Model of the JavaScript idiom (v || d): v when truthy, else d. -/
def truthyOr (v d : Cell) : Cell :=
  if truthy v then v else d

/-- Model of JavaScript String(v).  For dates the model renders the
carried hour and minute (the real engine renders a full date string; all
that is used downstream is that the result starts with a digit and is
truthy). -/
def jsString : Cell → String
  | .str s => s
  | .num q => ratStr q
  | .bool true => "true"
  | .bool false => "false"
  | .date h m => pad2 h ++ ":" ++ pad2 m
  | .null => "null"

/-- Split a character list at the first dot. -/
def splitDot : List Char → List Char × Option (List Char)
  | [] => ([], none)
  | '.' :: rest => ([], some rest)
  | c :: rest =>
    match splitDot rest with
    | (a, b) => (c :: a, b)

/-- All characters are decimal digits. -/
def allDigits (l : List Char) : Bool :=
  l.all Char.isDigit

/-- Natural value of a digit list (most significant first). -/
def digitsNat (l : List Char) : Nat :=
  l.foldl (fun n c => n * 10 + (c.toNat - 48)) 0

/-- Parse an unsigned decimal literal (digits with an optional fractional
part; at least one digit overall), none meaning NaN. -/
def parsePos (l : List Char) : Option ℚ :=
  match splitDot l with
  | (ip, none) =>
    if ip = [] ∨ ¬ allDigits ip then none else some (digitsNat ip)
  | (ip, some fp) =>
    if (ip = [] ∧ fp = []) ∨ ¬ allDigits ip ∨ ¬ allDigits fp then none
    else some ((digitsNat ip : ℚ) + (digitsNat fp : ℚ) / (10 ^ fp.length))

/-- Parse a signed decimal literal, none meaning NaN. -/
def parseDec : List Char → Option ℚ
  | '-' :: rest => (parsePos rest).map Neg.neg
  | '+' :: rest => parsePos rest
  | l => parsePos l

/-- Model of JavaScript Number(s) for a string: empty or blank trims to 0,
otherwise a signed decimal literal; anything else is NaN (none).  Hex,
exponent and Infinity literals are outside the modelled subset. -/
def parseJsNumber (s : String) : Option ℚ :=
  let t := jsTrim s
  if t = "" then some 0 else parseDec t.data

/-- Model of JavaScript Number(v); none is NaN.  Number of a Date is its
epoch value, which the model does not track, so it is mapped to NaN; no
verified statement depends on that branch. -/
def jsNumber : Cell → Option ℚ
  | .num q => some q
  | .str s => parseJsNumber s
  | .bool true => some 1
  | .bool false => some 0
  | .date _ _ => none
  | .null => some 0

/-! ## Data model: the four tables, lists of rows in insertion order -/

/-- A row of the menu_items table. -/
structure MenuRow where
  business_id : String
  id : Option ℚ
  name : String
  price : Option ℚ
  description : Option String
  active : Bool
deriving DecidableEq

/-- A row of the hours table.  openV and closeV model the open and close
columns; variant B stores the raw cell there, variant A a normalized
time string, so the column is modelled as an optional cell. -/
structure HoursRow where
  business_id : String
  day : String
  openV : Option Cell
  closeV : Option Cell
deriving DecidableEq

/-- A row of the location table (unique on business_id). -/
structure LocationRow where
  business_id : String
  current_spot : Option String
  note : Option String
deriving DecidableEq

/-- A row of the sync_status table (unique on business_id);
last_synced_at is the model clock value at the write. -/
structure StatusRow where
  business_id : String
  last_synced_at : Nat
  last_sheet : String
deriving DecidableEq

/-- The relational store. -/
structure DB where
  menu_items : List MenuRow
  hours : List HoursRow
  location : List LocationRow
  sync_status : List StatusRow
deriving DecidableEq

/-- The empty store. -/
def emptyDB : DB := ⟨[], [], [], []⟩

/-- menu_items rows of one business (SELECT ... WHERE business_id = b). -/
def menuFor (b : String) (l : List MenuRow) : List MenuRow :=
  l.filter (fun r => r.business_id = b)

/-- hours rows of one business. -/
def hoursFor (b : String) (l : List HoursRow) : List HoursRow :=
  l.filter (fun r => r.business_id = b)

/-- location rows of one business. -/
def locFor (b : String) (l : List LocationRow) : List LocationRow :=
  l.filter (fun r => r.business_id = b)

/-- sync_status rows of one business. -/
def statusFor (b : String) (l : List StatusRow) : List StatusRow :=
  l.filter (fun r => r.business_id = b)

/-! ## Menu transformer (syncMenu, verbatim identical in both variants) -/

/-- The row-retention test of syncMenu: at least 5 columns, and none of
the id, name, price cells is the empty string (the two continue guards). -/
def menuRowKept (r : List Cell) : Bool :=
  if r.length < 5 then false
  else
    decide (r.getD 0 Cell.null ≠ Cell.str "") &&
    decide (r.getD 1 Cell.null ≠ Cell.str "") &&
    decide (r.getD 2 Cell.null ≠ Cell.str "")

/-- The menu_items row inserted for a surviving input row: id and price
through Number(), name through String(), description through the
(description ? String(description) : null) conditional, active through
(active === true || String(active).toUpperCase() === "TRUE").  Cell.null
is the default for absent positions (JavaScript undefined); the length
guard makes the defaults unreachable for kept rows. -/
def menuRowOf (b : String) (r : List Cell) : MenuRow :=
  { business_id := b
    id := jsNumber (r.getD 0 Cell.null)
    name := jsString (r.getD 1 Cell.null)
    price := jsNumber (r.getD 2 Cell.null)
    description :=
      if truthy (r.getD 3 Cell.null) then some (jsString (r.getD 3 Cell.null)) else none
    active :=
      decide (r.getD 4 Cell.null = Cell.bool true) ||
      decide (upperStr (jsString (r.getD 4 Cell.null)) = "TRUE") }

/-- DELETE FROM menu_items WHERE business_id = b. -/
def deleteMenu (b : String) (db : DB) : DB :=
  { db with menu_items := db.menu_items.filter (fun r => r.business_id ≠ b) }

/-- INSERT INTO menu_items of the row built from input row r. -/
def insertMenuRow (b : String) (r : List Cell) (db : DB) : DB :=
  { db with menu_items := db.menu_items ++ [menuRowOf b r] }

/-- The whole syncMenu writer: skip the header row, delete the old rows
of the business, then insert one row per surviving input row in order. -/
def syncMenu (b : String) (values : List (List Cell)) (db : DB) : DB :=
  (values.drop 1).foldl
    (fun acc r => if menuRowKept r then insertMenuRow b r acc else acc)
    (deleteMenu b db)

/-! ## Hours transformers -/

/-- The retention test shared by both hours writers: at least 3 columns
and a truthy day cell. -/
def hoursRowKept (r : List Cell) : Bool :=
  if r.length < 3 then false else truthy (r.getD 0 Cell.null)

/-- Positional check that the first ten characters of a list are an ISO
date YYYY-MM-DD with a plausible month and day. -/
def isoDateHead (l : List Char) : Bool :=
  match l with
  | y1 :: y2 :: y3 :: y4 :: '-' :: m1 :: m2 :: '-' :: d1 :: d2 :: _ =>
    y1.isDigit && y2.isDigit && y3.isDigit && y4.isDigit &&
    m1.isDigit && m2.isDigit && d1.isDigit && d2.isDigit &&
    decide (1 ≤ (m1.toNat - 48) * 10 + (m2.toNat - 48)) &&
    decide ((m1.toNat - 48) * 10 + (m2.toNat - 48) ≤ 12) &&
    decide (1 ≤ (d1.toNat - 48) * 10 + (d2.toNat - 48)) &&
    decide ((d1.toNat - 48) * 10 + (d2.toNat - 48) ≤ 31)
  | _ => false

/-- Valid endings after YYYY-MM-DDTHH:MM - nothing more, :SS, :SS.mmm,
each optionally followed by Z. -/
def isoTail : List Char → Bool
  | [] => true
  | ['Z'] => true
  | ':' :: s1 :: s2 :: rest =>
    s1.isDigit && s2.isDigit &&
    (match rest with
     | [] => true
     | ['Z'] => true
     | '.' :: f1 :: f2 :: f3 :: rest2 =>
       f1.isDigit && f2.isDigit && f3.isDigit && (rest2 = [] || rest2 = ['Z'])
     | _ => false)
  | _ => false

/-- Model of new Date(s) followed by getUTCHours()/getUTCMinutes() for
the string shapes the service receives: ISO YYYY-MM-DD dates, optionally
with THH:MM, seconds, milliseconds and a Z suffix.  Returns the UTC hour
and minute, none when the string does not parse.  (The engine's legacy
non-ISO date formats are outside the modelled subset.) -/
def isoUTC (s : String) : Option (Nat × Nat) :=
  let l := s.data
  if ¬ isoDateHead l then none
  else
    match l.drop 10 with
    | [] => some (0, 0)
    | 'T' :: h1 :: h2 :: ':' :: n1 :: n2 :: rest =>
      if h1.isDigit && h2.isDigit && n1.isDigit && n2.isDigit &&
         decide ((h1.toNat - 48) * 10 + (h2.toNat - 48) < 24) &&
         decide ((n1.toNat - 48) * 10 + (n2.toNat - 48) < 60) &&
         isoTail rest
      then some ((h1.toNat - 48) * 10 + (h2.toNat - 48), (n1.toNat - 48) * 10 + (n2.toNat - 48))
      else none
    | _ => none

/-- Seconds suffix of the time pattern: empty or a colon and two digits. -/
def secPart : List Char → Bool
  | [] => true
  | [':', a, b] => a.isDigit && b.isDigit
  | _ => false

/-- The regular expression of normalizeSheetTime, one or two digits, a
colon, two digits, optional colon and two seconds digits, anchored. -/
def timePat (s : String) : Bool :=
  match s.data with
  | a :: ':' :: c :: d :: rest => a.isDigit && c.isDigit && d.isDigit && secPart rest
  | a :: b :: ':' :: c :: d :: rest =>
    a.isDigit && b.isDigit && c.isDigit && d.isDigit && secPart rest
  | _ => false

/-- normalizeSheetTime from variant A: null/empty to null; a Date value
to its zero-padded hour:minute; a date-parseable string to its UTC
hour:minute; a string matching the time pattern to its first five
characters; anything else to null. -/
def normalizeSheetTime (v : Cell) : Option String :=
  if v = Cell.null ∨ v = Cell.str "" then none
  else
    match v with
    | .date h m => some (pad2 h ++ ":" ++ pad2 m)
    | v =>
      let s := jsTrim (jsString v)
      match isoUTC s with
      | some (h, m) => some (pad2 h ++ ":" ++ pad2 m)
      | none => if timePat s then some (takeStr s 5) else none

/-- DELETE FROM hours WHERE business_id = b. -/
def deleteHours (b : String) (db : DB) : DB :=
  { db with hours := db.hours.filter (fun r => r.business_id ≠ b) }

/-- The hours row inserted by variant A for a surviving input row: day
through String().trim(), open and close through normalizeSheetTime. -/
def hoursRowA (b : String) (r : List Cell) : HoursRow :=
  { business_id := b
    day := jsTrim (jsString (r.getD 0 Cell.null))
    openV := (normalizeSheetTime (r.getD 1 Cell.null)).map Cell.str
    closeV := (normalizeSheetTime (r.getD 2 Cell.null)).map Cell.str }

/-- The hours row inserted by variant B: day through String() (no trim),
open and close stored raw through (v || null). -/
def hoursRowB (b : String) (r : List Cell) : HoursRow :=
  { business_id := b
    day := jsString (r.getD 0 Cell.null)
    openV := if truthy (r.getD 1 Cell.null) then some (r.getD 1 Cell.null) else none
    closeV := if truthy (r.getD 2 Cell.null) then some (r.getD 2 Cell.null) else none }

/-- Variant A syncHours writer. -/
def syncHoursA (b : String) (values : List (List Cell)) (db : DB) : DB :=
  (values.drop 1).foldl
    (fun acc r =>
      if hoursRowKept r then { acc with hours := acc.hours ++ [hoursRowA b r] } else acc)
    (deleteHours b db)

/-- Variant B syncHours writer. -/
def syncHoursB (b : String) (values : List (List Cell)) (db : DB) : DB :=
  (values.drop 1).foldl
    (fun acc r =>
      if hoursRowKept r then { acc with hours := acc.hours ++ [hoursRowB b r] } else acc)
    (deleteHours b db)

/-! ## Location transformers -/

/-- Last-binding lookup in an association list, modelling reads of a
JavaScript object built by repeated assignment (a later assignment to the
same key overwrites an earlier one). -/
def lookupLast (k : String) (l : List (String × String)) : Option String :=
  (l.reverse.find? (fun p => p.1 = k)).map Prod.snd

/-- Model of the JavaScript idiom (v || null) on an optional string read
from the map: undefined and the empty string both become null. -/
def orNull (v : Option String) : Option String :=
  match v with
  | none => none
  | some s => if s = "" then none else some s

/-- Variant A builds a map from lower-cased trimmed header names to the
trimmed stringified cells of the first data row:
map[String(headers[i] || "").trim().toLowerCase()] = String(row[i] || "").trim(). -/
def locMapA (headers row : List Cell) : List (String × String) :=
  (List.range headers.length).map (fun i =>
    (lowerStr (jsTrim (jsString (truthyOr (headers.getD i Cell.null) (Cell.str "")))),
     jsTrim (jsString (truthyOr (row.getD i Cell.null) (Cell.str "")))))

/-- The (current_spot, note) pair variant A extracts from a payload:
values[0] is the header row, values[1] the first data row, each field is
map[name] || null. -/
def locFieldsA (values : List (List Cell)) : Option String × Option String :=
  let m := locMapA (values.getD 0 []) (values.getD 1 [])
  (orNull (lookupLast "current_spot" m), orNull (lookupLast "note" m))

/-- The (current_spot, note) pair variant B extracts: the header row is
dropped, each remaining row is a label/value pair, a row labelled
current_spot or note assigns its trimmed value (possibly the empty
string) to that field, later rows overwriting earlier ones. -/
def locFieldsB (values : List (List Cell)) : Option String × Option String :=
  (values.drop 1).foldl
    (fun acc r =>
      let label := jsTrim (jsString (truthyOr (r.getD 0 Cell.null) (Cell.str "")))
      let value := jsTrim (jsString (truthyOr (r.getD 1 Cell.null) (Cell.str "")))
      let acc1 := if label = "current_spot" then (some value, acc.2) else acc
      if label = "note" then (acc1.1, some value) else acc1)
    (none, none)

/-- INSERT INTO location ... ON CONFLICT (business_id) DO UPDATE: update
the row of the business in place when one exists, insert otherwise. -/
def upsertLocation (b : String) (cs nt : Option String) (db : DB) : DB :=
  { db with location :=
      if db.location.any (fun r => r.business_id = b) then
        db.location.map (fun r =>
          if r.business_id = b then { r with current_spot := cs, note := nt } else r)
      else db.location ++ [⟨b, cs, nt⟩] }

/-- Variant A syncLocation writer. -/
def syncLocationA (b : String) (values : List (List Cell)) (db : DB) : DB :=
  upsertLocation b (locFieldsA values).1 (locFieldsA values).2 db

/-- Variant B syncLocation writer. -/
def syncLocationB (b : String) (values : List (List Cell)) (db : DB) : DB :=
  upsertLocation b (locFieldsB values).1 (locFieldsB values).2 db

/-! ## Sync status recorder and the menu read endpoint -/

/-- INSERT INTO sync_status ... ON CONFLICT (business_id) DO UPDATE SET
last_synced_at = NOW(), last_sheet = EXCLUDED.last_sheet. -/
def upsertStatus (b sheet : String) (now : Nat) (db : DB) : DB :=
  { db with sync_status :=
      if db.sync_status.any (fun r => r.business_id = b) then
        db.sync_status.map (fun r =>
          if r.business_id = b then { r with last_synced_at := now, last_sheet := sheet } else r)
      else db.sync_status ++ [⟨b, now, sheet⟩] }

/-- ORDER BY id ASC on the numeric id column; SQL numeric NaN (the none
value) sorts above every number. -/
def numLE (a b : Option ℚ) : Prop :=
  match b with
  | none => True
  | some y =>
    match a with
    | none => False
    | some x => x ≤ y

instance : DecidableRel numLE := fun a b =>
  match a, b with
  | _, none => isTrue trivial
  | none, some _ => isFalse (fun h => h)
  | some x, some y => inferInstanceAs (Decidable (x ≤ y))

instance : IsTotal (Option ℚ) numLE :=
  ⟨fun a b =>
    match a, b with
    | _, none => Or.inl trivial
    | none, some _ => Or.inr trivial
    | some x, some y => (le_total x y).imp id id⟩

instance : IsTrans (Option ℚ) numLE :=
  ⟨fun a b c hab hbc =>
    match b, c, hbc with
    | _, none, _ => trivial
    | some y, some z, hbc =>
      match a, hab with
      | some x, hab => le_trans (α := ℚ) hab hbc
      | none, hab => hab.elim⟩

/-- Row order of the menu read query. -/
def menuLE (a b : MenuRow) : Prop := numLE a.id b.id

instance : DecidableRel menuLE := fun a b => inferInstanceAs (Decidable (numLE a.id b.id))

instance : IsTotal MenuRow menuLE := ⟨fun a b => IsTotal.total (r := numLE) a.id b.id⟩

instance : IsTrans MenuRow menuLE :=
  ⟨fun _ _ _ hab hbc => Trans.trans (r := numLE) (s := numLE) hab hbc⟩

/-- The JSON body of GET /business/:id/menu together with its HTTP status
(the pure model has no database failures, so the catch branch returning
500 is unreachable and the status is always 200). -/
structure MenuResp where
  business_id : String
  menu : List MenuRow
  status : Nat
deriving DecidableEq

/-- GET /business/:id/menu: select the rows of the business ordered by
ascending numeric id and return them with the business id. -/
def getBusinessMenu (b : String) (db : DB) : MenuResp :=
  { business_id := b
    menu := List.insertionSort menuLE (menuFor b db.menu_items)
    status := 200 }

/-! ## Instrumented runs of the POST /sync handlers

To settle claims about response ordering, failure outcomes and absence of
writes, the handlers are run over a state that records the store, the
trace of observable events (each database query attempt and each response
sent), a running query index, and an optional index of the single query
that throws (a thrown query leaves the store untouched and aborts the
enclosing try block, exactly as a rejected pool.query rejects the await).
Sequencing is written in explicit state-passing style. -/

/-- The JSON bodies the handlers can send. -/
inductive RBody where
  | ok
  | accepted
  | invalidPayload
  | unknownSheet
  | unauthorized
  | missingKey
  | syncFailed
deriving DecidableEq

/-- Observable events of a handler run. -/
inductive Ev where
  | query
  | respond (status : Nat) (body : RBody)
deriving DecidableEq

/-- Instrumented run state. -/
structure St where
  db : DB
  events : List Ev
  qIdx : Nat
  failAt : Option Nat
  now : Nat
deriving DecidableEq

/-- One awaited pool.query call: records the attempt, consumes one query
index, applies the update on success, throws (none) when this is the
query chosen to fail. -/
def query (upd : Nat → DB → DB) (s : St) : Option Unit × St :=
  if s.failAt = some s.qIdx then
    (none, { s with qIdx := s.qIdx + 1, events := s.events ++ [Ev.query] })
  else
    (some (), { s with db := upd s.now s.db, qIdx := s.qIdx + 1, events := s.events ++ [Ev.query] })

/-- res.status(code).json(body). -/
def respond (code : Nat) (b : RBody) (s : St) : Option Unit × St :=
  (some (), { s with events := s.events ++ [Ev.respond code b] })

/-- The insert loop of syncMenu, one query per surviving row. -/
def syncMenuRowsM (b : String) (rows : List (List Cell)) (s : St) : Option Unit × St :=
  match rows with
  | [] => (some (), s)
  | r :: rest =>
    if menuRowKept r then
      match query (fun _ db => insertMenuRow b r db) s with
      | (some _, s1) => syncMenuRowsM b rest s1
      | (none, s1) => (none, s1)
    else syncMenuRowsM b rest s

/-- Instrumented syncMenu: the delete query, then the insert loop. -/
def syncMenuM (b : String) (values : List (List Cell)) (s : St) : Option Unit × St :=
  match query (fun _ db => deleteMenu b db) s with
  | (some _, s1) => syncMenuRowsM b (values.drop 1) s1
  | (none, s1) => (none, s1)

/-- The insert loop of syncHours, generic in the row builder so that it
serves both variants. -/
def syncHoursRowsM (mk : List Cell → HoursRow) (rows : List (List Cell)) (s : St) :
    Option Unit × St :=
  match rows with
  | [] => (some (), s)
  | r :: rest =>
    if hoursRowKept r then
      match query (fun _ db => { db with hours := db.hours ++ [mk r] }) s with
      | (some _, s1) => syncHoursRowsM mk rest s1
      | (none, s1) => (none, s1)
    else syncHoursRowsM mk rest s

/-- Instrumented variant A syncHours. -/
def syncHoursAM (b : String) (values : List (List Cell)) (s : St) : Option Unit × St :=
  match query (fun _ db => deleteHours b db) s with
  | (some _, s1) => syncHoursRowsM (hoursRowA b) (values.drop 1) s1
  | (none, s1) => (none, s1)

/-- Instrumented variant B syncHours. -/
def syncHoursBM (b : String) (values : List (List Cell)) (s : St) : Option Unit × St :=
  match query (fun _ db => deleteHours b db) s with
  | (some _, s1) => syncHoursRowsM (hoursRowB b) (values.drop 1) s1
  | (none, s1) => (none, s1)

/-- Instrumented variant A syncLocation: a single upsert query. -/
def syncLocationAM (b : String) (values : List (List Cell)) (s : St) : Option Unit × St :=
  query (fun _ db => syncLocationA b values db) s

/-- Instrumented variant B syncLocation: a single upsert query. -/
def syncLocationBM (b : String) (values : List (List Cell)) (s : St) : Option Unit × St :=
  query (fun _ db => syncLocationB b values db) s

/-- Instrumented sync_status upsert, stamping the model clock. -/
def statusUpsertM (b sheet : String) (s : St) : Option Unit × St :=
  query (fun now db => upsertStatus b sheet now db) s

/-- The request fields the handlers read: the x-sync-key header (none
when absent), business_id, sheet, and values (none when the body field
is not an array).  Business and sheet identifiers are modelled as
strings, with the empty string as the falsy value the validation guard
rejects. -/
structure SyncReq where
  syncKeyHeader : Option String
  business_id : String
  sheet : String
  values : Option (List (List Cell))
deriving DecidableEq

/-- requireSyncKey, common to both variants: trim the configured secret
(empty when the environment variable is unset) and the incoming header;
an empty configured secret is a 500 server-configuration rejection, a
mismatch a 401 rejection, otherwise the check passes (none).  The check
reads nothing but its two inputs and touches no table. -/
def requireSyncKey (envKey : Option String) (hdr : Option String) : Option (Nat × RBody) :=
  let expected := jsTrim (envKey.getD "")
  let incoming := jsTrim (hdr.getD "")
  if expected = "" then some (500, RBody.missingKey)
  else if incoming ≠ expected then some (401, RBody.unauthorized)
  else none

/-- The try/catch tail of variant B: run the transform, then the status
upsert, then answer ok; any throw lands in the catch, which answers 500.
The unknown-sheet 400 return sits before this block in handleSyncB (in
the source it is the final else of the dispatch chain inside try, with
no effect preceding it, so hoisting it preserves behaviour). -/
def runTryB (transform : St → Option Unit × St) (b sheet : String) (s : St) :
    Option Unit × St :=
  match transform s with
  | (none, s1) => respond 500 RBody.syncFailed s1
  | (some _, s1) =>
    match statusUpsertM b sheet s1 with
    | (none, s2) => respond 500 RBody.syncFailed s2
    | (some _, s2) => respond 200 RBody.ok s2

/-- Variant B POST /sync: auth check, payload validation, dispatch on the
sheet name, status upsert, response after the writes. -/
def handleSyncB (envKey : Option String) (req : SyncReq) (s : St) : Option Unit × St :=
  match requireSyncKey envKey req.syncKeyHeader with
  | some (code, b) => respond code b s
  | none =>
    if req.business_id = "" ∨ req.sheet = "" ∨ req.values = none then
      respond 400 RBody.invalidPayload s
    else
      if req.sheet = "menu" then
        runTryB (syncMenuM req.business_id (req.values.getD [])) req.business_id req.sheet s
      else if req.sheet = "hours" then
        runTryB (syncHoursBM req.business_id (req.values.getD [])) req.business_id req.sheet s
      else if req.sheet = "location" then
        runTryB (syncLocationBM req.business_id (req.values.getD [])) req.business_id req.sheet s
      else respond 400 RBody.unknownSheet s

/-- The fire-and-forget async body of variant A: dispatch, then the
status upsert; an unknown sheet only logs and returns before the status
write; the catch swallows every throw (it only logs). -/
def syncWorkA (b sheet : String) (values : List (List Cell)) (s : St) : Option Unit × St :=
  let work : Option Unit × St :=
    if sheet = "menu" then
      match syncMenuM b values s with
      | (some _, s1) => statusUpsertM b sheet s1
      | (none, s1) => (none, s1)
    else if sheet = "hours" then
      match syncHoursAM b values s with
      | (some _, s1) => statusUpsertM b sheet s1
      | (none, s1) => (none, s1)
    else if sheet = "location" then
      match syncLocationAM b values s with
      | (some _, s1) => statusUpsertM b sheet s1
      | (none, s1) => (none, s1)
    else (some (), s)
  match work with
  | (none, s1) => (some (), s1)
  | (some _, s1) => (some (), s1)

/-- Variant A POST /sync: auth check, payload validation, then the
response is sent immediately and the database work runs afterwards. -/
def handleSyncA (envKey : Option String) (req : SyncReq) (s : St) : Option Unit × St :=
  match requireSyncKey envKey req.syncKeyHeader with
  | some (code, b) => respond code b s
  | none =>
    if req.business_id = "" ∨ req.sheet = "" ∨ req.values = none then
      respond 400 RBody.invalidPayload s
    else
      syncWorkA req.business_id req.sheet (req.values.getD [])
        (respond 200 RBody.accepted s).2

/-- The variant B transform selected by a recognized sheet name; used to
state the response-reflects-outcome property. -/
def transformBFor (sheet b : String) (values : List (List Cell)) : St → Option Unit × St :=
  if sheet = "menu" then syncMenuM b values
  else if sheet = "hours" then syncHoursBM b values
  else syncLocationBM b values

/-! ## Helper lemmas: rendered numbers and dates never uppercase to TRUE -/

lemma digitChar_toUpper (n : Nat) : Char.toUpper (digitChar n) = digitChar n := by
  unfold digitChar
  split <;> decide

lemma digitChar_ne_T (n : Nat) : digitChar n ≠ 'T' := by
  unfold digitChar
  split <;> decide

lemma natDigits_mem (fuel n : Nat) (c : Char) (hc : c ∈ natDigits fuel n) :
    ∃ k, c = digitChar k := by
  induction fuel generalizing n with
  | zero => simp [natDigits] at hc
  | succ fuel ih =>
    unfold natDigits at hc
    by_cases h : n < 10
    · simp [h] at hc
      exact ⟨n, hc⟩
    · simp [h, List.mem_append] at hc
      rcases hc with hc | hc
      · exact ih _ hc
      · exact ⟨n % 10, hc⟩

lemma natDigits_ne_nil (fuel n : Nat) : natDigits (fuel + 1) n ≠ [] := by
  unfold natDigits
  by_cases h : n < 10 <;> simp [h]

lemma natStr_head (n : Nat) :
    ∃ c l, (natStr n).data = c :: l ∧ ∃ k, c = digitChar k := by
  unfold natStr
  rcases hd : natDigits (n + 1) n with _ | ⟨c, l⟩
  · exact absurd hd (natDigits_ne_nil n n)
  · refine ⟨c, l, rfl, natDigits_mem (n + 1) n c ?_⟩
    rw [hd]
    exact List.mem_cons_self c l

lemma data_append (a b : String) : (a ++ b).data = a.data ++ b.data := rfl

lemma upperStr_ne_TRUE_of_head (s : String) (c : Char) (l : List Char)
    (hd : s.data = c :: l) (hc : Char.toUpper c ≠ 'T') : upperStr s ≠ "TRUE" := by
  intro h
  have h2 : (upperStr s).data = ['T', 'R', 'U', 'E'] := by rw [h]
  rw [upperStr, hd] at h2
  simp [List.map_cons] at h2
  exact hc h2.1

lemma pad2_head (n : Nat) :
    ∃ c l, (pad2 n).data = c :: l ∧ (c = '0' ∨ ∃ k, c = digitChar k) := by
  unfold pad2
  by_cases h : n < 10
  · simp only [h, if_true]
    exact ⟨'0', (natStr n).data, rfl, Or.inl rfl⟩
  · simp only [h, if_false]
    obtain ⟨c, l, hd, hk⟩ := natStr_head n
    exact ⟨c, l, hd, Or.inr hk⟩

lemma upperStr_ratStr_ne_TRUE (q : ℚ) : upperStr (ratStr q) ≠ "TRUE" := by
  unfold ratStr
  by_cases h : q < 0
  · simp only [h, if_true]
    apply upperStr_ne_TRUE_of_head _ '-' (ratStrNN (-q)).data
    · rw [data_append] ; rfl
    · decide
  · simp only [h, if_false]
    unfold ratStrNN
    by_cases h2 : q - (q.floor : ℚ) = 0
    · simp only [h2, if_true]
      obtain ⟨c, l, hd, k, hk⟩ := natStr_head q.floor.toNat
      exact upperStr_ne_TRUE_of_head _ c l hd (by rw [hk, digitChar_toUpper] ; exact digitChar_ne_T k)
    · simp only [h2, if_false]
      obtain ⟨c, l, hd, k, hk⟩ := natStr_head q.floor.toNat
      apply upperStr_ne_TRUE_of_head _ c (l ++ ("." ++ String.mk (fracDigits 17 (q - (q.floor : ℚ)))).data)
      · rw [data_append, data_append, hd]
        simp
      · rw [hk, digitChar_toUpper]
        exact digitChar_ne_T k

lemma upperStr_date_ne_TRUE (h m : Nat) : upperStr (jsString (Cell.date h m)) ≠ "TRUE" := by
  show upperStr (pad2 h ++ ":" ++ pad2 m) ≠ "TRUE"
  obtain ⟨c, l, hd, hc⟩ := pad2_head h
  apply upperStr_ne_TRUE_of_head _ c (l ++ (":" ++ pad2 m).data)
  · rw [data_append, data_append, hd]
    simp
  · rcases hc with hc | ⟨k, hk⟩
    · rw [hc] ; decide
    · rw [hk, digitChar_toUpper]
      exact digitChar_ne_T k

/-- The active coercion (active === true || String(active).toUpperCase()
=== "TRUE") holds exactly for the boolean true and for strings whose
upper casing is TRUE. -/
lemma active_coercion_iff (c : Cell) :
    (decide (c = Cell.bool true) || decide (upperStr (jsString c) = "TRUE")) = true ↔
      (c = Cell.bool true ∨ ∃ s, c = Cell.str s ∧ upperStr s = "TRUE") := by
  cases c with
  | str s =>
    simp [jsString]
  | num q =>
    simp [jsString, upperStr_ratStr_ne_TRUE q]
  | bool b =>
    cases b with
    | true => simp
    | false =>
      constructor
      · intro h
        simp [jsString] at h
        exact absurd h (by decide)
      · rintro (h | ⟨s, hs, _⟩)
        · simp at h
        · simp at hs
  | date h m =>
    simp [upperStr_date_ne_TRUE h m]
  | null =>
    constructor
    · intro h
      simp [jsString] at h
      exact absurd h (by decide)
    · rintro (h | ⟨s, hs, _⟩)
      · simp at h
      · simp at hs

/-! ## Helper lemmas: the replace-all folds and the upserts -/

lemma menuLoop_menu (b : String) (rows : List (List Cell)) :
    ∀ acc : DB,
      (rows.foldl (fun acc r => if menuRowKept r then insertMenuRow b r acc else acc) acc).menu_items
        = acc.menu_items ++
          rows.filterMap (fun r => if menuRowKept r then some (menuRowOf b r) else none) := by
  induction rows with
  | nil => intro acc ; simp
  | cons r rest ih =>
    intro acc
    by_cases h : menuRowKept r
    · simp only [List.foldl_cons, List.filterMap_cons, h, if_true]
      rw [ih]
      simp [insertMenuRow]
    · simp only [List.foldl_cons, List.filterMap_cons, h]
      simp only [Bool.false_eq_true, if_false]
      exact ih acc

lemma menuLoop_rest (b : String) (rows : List (List Cell)) :
    ∀ acc : DB,
      (rows.foldl (fun acc r => if menuRowKept r then insertMenuRow b r acc else acc) acc).hours
          = acc.hours ∧
      (rows.foldl (fun acc r => if menuRowKept r then insertMenuRow b r acc else acc) acc).location
          = acc.location ∧
      (rows.foldl (fun acc r => if menuRowKept r then insertMenuRow b r acc else acc) acc).sync_status
          = acc.sync_status := by
  induction rows with
  | nil => intro acc ; simp
  | cons r rest ih =>
    intro acc
    by_cases h : menuRowKept r <;> simp only [List.foldl_cons, h, if_true, if_false] <;>
      exact ih _

lemma hoursLoop_hours (mk : List Cell → HoursRow) (rows : List (List Cell)) :
    ∀ acc : DB,
      (rows.foldl (fun acc r => if hoursRowKept r then { acc with hours := acc.hours ++ [mk r] } else acc) acc).hours
        = acc.hours ++ rows.filterMap (fun r => if hoursRowKept r then some (mk r) else none) := by
  induction rows with
  | nil => intro acc ; simp
  | cons r rest ih =>
    intro acc
    by_cases h : hoursRowKept r
    · simp only [List.foldl_cons, List.filterMap_cons, h, if_true]
      rw [ih]
      simp
    · simp only [List.foldl_cons, List.filterMap_cons, h]
      simp only [Bool.false_eq_true, if_false]
      exact ih acc

lemma hoursLoop_rest (mk : List Cell → HoursRow) (rows : List (List Cell)) :
    ∀ acc : DB,
      (rows.foldl (fun acc r => if hoursRowKept r then { acc with hours := acc.hours ++ [mk r] } else acc) acc).menu_items
          = acc.menu_items ∧
      (rows.foldl (fun acc r => if hoursRowKept r then { acc with hours := acc.hours ++ [mk r] } else acc) acc).location
          = acc.location ∧
      (rows.foldl (fun acc r => if hoursRowKept r then { acc with hours := acc.hours ++ [mk r] } else acc) acc).sync_status
          = acc.sync_status := by
  induction rows with
  | nil => intro acc ; simp
  | cons r rest ih =>
    intro acc
    by_cases h : hoursRowKept r <;> simp only [List.foldl_cons, h, if_true, if_false] <;>
      exact ih _

lemma filter_eq_of_filter_ne {α} (bid : α → String) (b b2 : String) (h : b2 ≠ b)
    (l : List α) :
    ((l.filter (fun r => bid r ≠ b)).filter (fun r => bid r = b2))
      = l.filter (fun r => bid r = b2) := by
  induction l with
  | nil => rfl
  | cons r rest ih =>
    simp only [ne_eq, decide_not] at ih
    by_cases hr : bid r = b2
    · have hrb : bid r ≠ b := by rw [hr] ; exact h
      simp [List.filter_cons, hr, hrb, h, Ne.symm h, ih, -List.filter_filter]
    · by_cases hrb : bid r = b
      · simp [List.filter_cons, hr, hrb, h, Ne.symm h, ih, -List.filter_filter]
      · simp [List.filter_cons, hr, hrb, ih, -List.filter_filter]

lemma filter_map_update {α} (bid : α → String) (g : α → α)
    (hg : ∀ r, bid (g r) = bid r) (b b2 : String) (h : b2 ≠ b) (l : List α) :
    ((l.map (fun r => if bid r = b then g r else r)).filter (fun r => bid r = b2))
      = l.filter (fun r => bid r = b2) := by
  induction l with
  | nil => rfl
  | cons r rest ih =>
    by_cases hrb : bid r = b
    · have h3 : ¬ bid (g r) = b2 := by rw [hg r, hrb] ; exact fun he => h he.symm
      have h4 : ¬ bid r = b2 := by rw [hrb] ; exact fun he => h he.symm
      simp [List.filter_cons, hrb, h3, h4, h, Ne.symm h, ih]
    · simp [List.filter_cons, hrb, ih]

lemma filterMap_all_bid (b : String) (values : List (List Cell)) :
    ∀ r ∈ values.filterMap (fun r => if menuRowKept r then some (menuRowOf b r) else none),
      r.business_id = b := by
  intro r hr
  rw [List.mem_filterMap] at hr
  obtain ⟨x, _, hx⟩ := hr
  by_cases h : menuRowKept x
  · simp only [h, if_true, Option.some.injEq] at hx
    rw [← hx]
    rfl
  · simp [h] at hx

lemma filter_ne_then_eq {α} (bid : α → String) (b : String) (l : List α) :
    ((l.filter (fun r => bid r ≠ b)).filter (fun r => bid r = b)) = [] := by
  induction l with
  | nil => rfl
  | cons r rest ih =>
    by_cases hr : bid r = b <;> simp [List.filter_cons, hr, ih]

lemma syncMenu_menuFor (b : String) (values : List (List Cell)) (db : DB) :
    menuFor b (syncMenu b values db).menu_items
      = (values.drop 1).filterMap
          (fun r => if menuRowKept r then some (menuRowOf b r) else none) := by
  unfold syncMenu menuFor
  rw [menuLoop_menu, List.filter_append]
  have h1 : ((deleteMenu b db).menu_items.filter (fun r => r.business_id = b)) = [] :=
    filter_ne_then_eq (fun r => r.business_id) b db.menu_items
  rw [h1, List.nil_append, List.filter_eq_self.mpr]
  intro a ha
  exact decide_eq_true (filterMap_all_bid b (values.drop 1) a ha)

/-- C1: after a menu sync the menu table of that business holds exactly
one row per surviving input row in input order (header dropped, rows kept
iff they have at least 5 columns and non-empty id, name and price cells),
with id and price run through Number(), description nulled when the cell
is empty or null, and active true exactly for the boolean true or a
string upper-casing to TRUE; nothing of the prior table contents for the
business remains (the result does not depend on the prior store). -/
theorem menu_sync_replaces_rows (b : String) (values : List (List Cell)) (db : DB) :
    menuFor b (syncMenu b values db).menu_items
      = (values.drop 1).filterMap
          (fun r => if menuRowKept r then some (menuRowOf b r) else none)
    ∧ (∀ r : List Cell, menuRowKept r = true ↔
        (5 ≤ r.length ∧ r.getD 0 Cell.null ≠ Cell.str "" ∧ r.getD 1 Cell.null ≠ Cell.str ""
          ∧ r.getD 2 Cell.null ≠ Cell.str ""))
    ∧ (∀ r : List Cell, (menuRowOf b r).id = jsNumber (r.getD 0 Cell.null)
        ∧ (menuRowOf b r).price = jsNumber (r.getD 2 Cell.null)
        ∧ (menuRowOf b r).name = jsString (r.getD 1 Cell.null))
    ∧ (∀ r : List Cell, (r.getD 3 Cell.null = Cell.str "" ∨ r.getD 3 Cell.null = Cell.null)
        → (menuRowOf b r).description = none)
    ∧ (∀ r : List Cell, (menuRowOf b r).active = true ↔
        (r.getD 4 Cell.null = Cell.bool true ∨
          ∃ s, r.getD 4 Cell.null = Cell.str s ∧ upperStr s = "TRUE")) := by
  refine ⟨syncMenu_menuFor b values db, ?_, ?_, ?_, ?_⟩
  · intro r
    by_cases h : r.length < 5
    · simp only [menuRowKept, h, if_true]
      constructor
      · intro hc
        exact absurd hc (by decide)
      · intro hc
        exact absurd hc.1 (by omega)
    · have h5 : 5 ≤ r.length := by omega
      simp [menuRowKept, h, h5, and_assoc]
  · intro r
    exact ⟨rfl, rfl, rfl⟩
  · intro r hd
    rcases hd with hd | hd
    · simp only [List.getD_eq_getElem?_getD] at hd
      simp [menuRowOf, truthy, hd]
    · simp only [List.getD_eq_getElem?_getD] at hd
      simp [menuRowOf, truthy, hd]
  · intro r
    simpa [menuRowOf] using active_coercion_iff (r.getD 4 Cell.null)

/-- Witness for C1 at a concrete row with an empty description cell. -/
theorem menu_sync_replaces_rows_witness :
    (menuRowOf "b1" [Cell.num 1, Cell.str "Taco", Cell.num 7, Cell.str "", Cell.str "TRUE"]).description
      = none :=
  (menu_sync_replaces_rows "b1" [] emptyDB).2.2.2.1
    [Cell.num 1, Cell.str "Taco", Cell.num 7, Cell.str "", Cell.str "TRUE"] (Or.inl rfl)

lemma upsertLocation_fields (b : String) (cs nt : Option String) (db : DB) :
    ∀ r ∈ (upsertLocation b cs nt db).location, r.business_id = b →
      r.current_spot = cs ∧ r.note = nt := by
  intro r hr hb
  unfold upsertLocation at hr
  by_cases ha : db.location.any (fun r => r.business_id = b)
  · simp only [ha, if_true] at hr
    rw [List.mem_map] at hr
    obtain ⟨r0, _, hr0⟩ := hr
    by_cases hb0 : r0.business_id = b
    · rw [← hr0]
      simp [hb0]
    · rw [← hr0] at hb
      simp [hb0] at hb
  · simp only [ha, Bool.false_eq_true, if_false] at hr
    rw [List.mem_append] at hr
    rcases hr with hr | hr
    · have ha2 : ∀ x ∈ db.location, ¬ x.business_id = b := by
        rw [Bool.not_eq_true, List.any_eq_false] at ha
        intro x hx
        simpa using ha x hx
      exact absurd hb (ha2 r hr)
    · simp at hr
      rw [hr]
      exact ⟨rfl, rfl⟩

lemma upsertLocation_frame (b b2 : String) (h : b2 ≠ b) (cs nt : Option String) (db : DB) :
    (upsertLocation b cs nt db).location.filter (fun r => r.business_id = b2)
      = db.location.filter (fun r => r.business_id = b2) := by
  unfold upsertLocation
  by_cases ha : db.location.any (fun r => r.business_id = b)
  · simp only [ha, if_true]
    exact filter_map_update (fun r => r.business_id)
      (fun r => { r with current_spot := cs, note := nt }) (fun r => rfl) b b2 h db.location
  · simp only [ha, Bool.false_eq_true, if_false, List.filter_append]
    have : ([(⟨b, cs, nt⟩ : LocationRow)].filter (fun r => r.business_id = b2)) = [] := by
      simp [List.filter_cons, Ne.symm h]
    rw [this, List.append_nil]

lemma upsertStatus_frame (b b2 : String) (h : b2 ≠ b) (sheet : String) (now : Nat) (db : DB) :
    (upsertStatus b sheet now db).sync_status.filter (fun r => r.business_id = b2)
      = db.sync_status.filter (fun r => r.business_id = b2) := by
  unfold upsertStatus
  by_cases ha : db.sync_status.any (fun r => r.business_id = b)
  · simp only [ha, if_true]
    exact filter_map_update (fun r => r.business_id)
      (fun r => { r with last_synced_at := now, last_sheet := sheet }) (fun r => rfl) b b2 h
      db.sync_status
  · simp only [ha, Bool.false_eq_true, if_false, List.filter_append]
    have : ([(⟨b, now, sheet⟩ : StatusRow)].filter (fun r => r.business_id = b2)) = [] := by
      simp [List.filter_cons, Ne.symm h]
    rw [this, List.append_nil]

lemma lookupLast_mem (k v : String) (l : List (String × String))
    (h : lookupLast k l = some v) : (k, v) ∈ l := by
  unfold lookupLast at h
  rw [Option.map_eq_some'] at h
  obtain ⟨p, hp, hv⟩ := h
  have hmem : p ∈ l.reverse := List.mem_of_find?_eq_some hp
  have hk : p.1 = k := by
    have := List.find?_some hp
    simpa using this
  rw [List.mem_reverse] at hmem
  have : p = (k, v) := by
    cases p
    simp at hk hv
    rw [hk, hv]
  rw [← this]
  exact hmem

lemma locMapA_val (headers row : List Cell) (kv : String × String) (h : kv ∈ locMapA headers row) :
    ∃ i, kv.2 = jsTrim (jsString (truthyOr (row.getD i Cell.null) (Cell.str ""))) := by
  unfold locMapA at h
  rw [List.mem_map] at h
  obtain ⟨i, _, hi⟩ := h
  exact ⟨i, by rw [← hi]⟩

lemma locFieldsA_field_shape (values : List (List Cell)) (f : Option String)
    (hf : f = orNull (lookupLast "current_spot" (locMapA (values.getD 0 []) (values.getD 1 [])))
        ∨ f = orNull (lookupLast "note" (locMapA (values.getD 0 []) (values.getD 1 [])))) :
    f = none ∨ ∃ i, f = some (jsTrim (jsString (truthyOr ((values.getD 1 []).getD i Cell.null) (Cell.str "")))) := by
  have main : ∀ k : String,
      orNull (lookupLast k (locMapA (values.getD 0 []) (values.getD 1 []))) = none ∨
      ∃ i, orNull (lookupLast k (locMapA (values.getD 0 []) (values.getD 1 [])))
        = some (jsTrim (jsString (truthyOr ((values.getD 1 []).getD i Cell.null) (Cell.str "")))) := by
    intro k
    rcases hl : lookupLast k (locMapA (values.getD 0 []) (values.getD 1 [])) with _ | v
    · exact Or.inl rfl
    · by_cases hv : v = ""
      · exact Or.inl (by simp [orNull, hv])
      · obtain ⟨i, hi⟩ := locMapA_val (values.getD 0 []) (values.getD 1 []) (k, v)
          (lookupLast_mem k v _ hl)
        have hON : orNull (some v) = some v := by simp [orNull, hv]
        exact Or.inr ⟨i, by rw [hON] ; exact congrArg some hi⟩
  rcases hf with hf | hf <;> rw [hf] <;> exact main _

/-- C7: the header row never contributes a written data row.  For the
menu, both hours writers and the label/value location writer the result
is invariant under replacing row 0; for the header-mapped location
writer, every stored field value of the business row is null or the
trimmed stringification of a cell of the first data row (values[1]) -
header cells are used only as column names, never as data. -/
theorem header_row_never_written :
    (∀ (b : String) (h1 h2 : List Cell) (rest : List (List Cell)) (db : DB),
        syncMenu b (h1 :: rest) db = syncMenu b (h2 :: rest) db)
    ∧ (∀ (b : String) (h1 h2 : List Cell) (rest : List (List Cell)) (db : DB),
        syncHoursA b (h1 :: rest) db = syncHoursA b (h2 :: rest) db)
    ∧ (∀ (b : String) (h1 h2 : List Cell) (rest : List (List Cell)) (db : DB),
        syncHoursB b (h1 :: rest) db = syncHoursB b (h2 :: rest) db)
    ∧ (∀ (b : String) (h1 h2 : List Cell) (rest : List (List Cell)) (db : DB),
        syncLocationB b (h1 :: rest) db = syncLocationB b (h2 :: rest) db)
    ∧ (∀ (b : String) (values : List (List Cell)) (db : DB),
        ∀ row ∈ locFor b (syncLocationA b values db).location,
          (row.current_spot = none ∨ ∃ i, row.current_spot
              = some (jsTrim (jsString (truthyOr ((values.getD 1 []).getD i Cell.null) (Cell.str "")))))
          ∧ (row.note = none ∨ ∃ i, row.note
              = some (jsTrim (jsString (truthyOr ((values.getD 1 []).getD i Cell.null) (Cell.str "")))))) := by
  refine ⟨fun b h1 h2 rest db => rfl, fun b h1 h2 rest db => rfl, fun b h1 h2 rest db => rfl,
    fun b h1 h2 rest db => rfl, ?_⟩
  intro b values db row hrow
  unfold locFor at hrow
  rw [List.mem_filter] at hrow
  obtain ⟨hmem, hbid⟩ := hrow
  have hb : row.business_id = b := by simpa using hbid
  have hf := upsertLocation_fields b (locFieldsA values).1 (locFieldsA values).2 db row hmem hb
  constructor
  · rw [hf.1]
    exact locFieldsA_field_shape values _ (Or.inl rfl)
  · rw [hf.2]
    exact locFieldsA_field_shape values _ (Or.inr rfl)

/-- Witness for C7 at a concrete header-mapped location payload. -/
theorem header_row_never_written_witness :
    (⟨"b", some "X", none⟩ : LocationRow).current_spot = none ∨
      ∃ i, (⟨"b", some "X", none⟩ : LocationRow).current_spot
        = some (jsTrim (jsString (truthyOr (([Cell.str "X"] : List Cell).getD i Cell.null) (Cell.str "")))) :=
  (header_row_never_written.2.2.2.2 "b" [[Cell.str "current_spot"], [Cell.str "X"]] emptyDB
    ⟨"b", some "X", none⟩ (by decide)).1

lemma filter_eq_nil_of_bid {α} (bid : α → String) (b b2 : String) (h : b2 ≠ b)
    (l : List α) (hl : ∀ r ∈ l, bid r = b) : l.filter (fun r => bid r = b2) = [] := by
  induction l with
  | nil => rfl
  | cons r rest ih =>
    have hr : bid r = b := hl r (List.mem_cons_self r rest)
    have hr2 : ¬ bid r = b2 := by rw [hr] ; exact fun he => h he.symm
    simp only [List.filter_cons, hr2, decide_eq_true_eq, if_false]
    exact ih (fun x hx => hl x (List.mem_cons_of_mem r hx))

lemma hours_filterMap_all_bid (b : String) (mk : List Cell → HoursRow)
    (hmk : ∀ r, (mk r).business_id = b) (values : List (List Cell)) :
    ∀ r ∈ values.filterMap (fun r => if hoursRowKept r then some (mk r) else none),
      r.business_id = b := by
  intro r hr
  rw [List.mem_filterMap] at hr
  obtain ⟨x, _, hx⟩ := hr
  by_cases hk : hoursRowKept x
  · simp only [hk, if_true, Option.some.injEq] at hx
    rw [← hx]
    exact hmk x
  · simp [hk] at hx

lemma syncMenu_rest (b : String) (values : List (List Cell)) (db : DB) :
    (syncMenu b values db).hours = db.hours ∧ (syncMenu b values db).location = db.location
      ∧ (syncMenu b values db).sync_status = db.sync_status := by
  unfold syncMenu
  simpa [deleteMenu] using menuLoop_rest b (values.drop 1) (deleteMenu b db)

lemma syncMenu_frame (b b2 : String) (h : b2 ≠ b) (values : List (List Cell)) (db : DB) :
    menuFor b2 (syncMenu b values db).menu_items = menuFor b2 db.menu_items := by
  unfold syncMenu menuFor
  rw [menuLoop_menu, List.filter_append]
  have h2 : ((values.drop 1).filterMap
      (fun r => if menuRowKept r then some (menuRowOf b r) else none)).filter
        (fun r => r.business_id = b2) = [] :=
    filter_eq_nil_of_bid (fun r : MenuRow => r.business_id) b b2 h _
      (filterMap_all_bid b (values.drop 1))
  rw [h2, List.append_nil]
  exact filter_eq_of_filter_ne (fun r => r.business_id) b b2 h db.menu_items

lemma syncHoursA_rest (b : String) (values : List (List Cell)) (db : DB) :
    (syncHoursA b values db).menu_items = db.menu_items
      ∧ (syncHoursA b values db).location = db.location
      ∧ (syncHoursA b values db).sync_status = db.sync_status := by
  unfold syncHoursA
  simpa [deleteHours] using hoursLoop_rest (hoursRowA b) (values.drop 1) (deleteHours b db)

lemma syncHoursB_rest (b : String) (values : List (List Cell)) (db : DB) :
    (syncHoursB b values db).menu_items = db.menu_items
      ∧ (syncHoursB b values db).location = db.location
      ∧ (syncHoursB b values db).sync_status = db.sync_status := by
  unfold syncHoursB
  simpa [deleteHours] using hoursLoop_rest (hoursRowB b) (values.drop 1) (deleteHours b db)

lemma syncHoursA_frame (b b2 : String) (h : b2 ≠ b) (values : List (List Cell)) (db : DB) :
    hoursFor b2 (syncHoursA b values db).hours = hoursFor b2 db.hours := by
  unfold syncHoursA hoursFor
  rw [hoursLoop_hours, List.filter_append]
  have h2 : ((values.drop 1).filterMap
      (fun r => if hoursRowKept r then some (hoursRowA b r) else none)).filter
        (fun r => r.business_id = b2) = [] :=
    filter_eq_nil_of_bid (fun r : HoursRow => r.business_id) b b2 h _
      (hours_filterMap_all_bid b (hoursRowA b) (fun r => rfl) (values.drop 1))
  rw [h2, List.append_nil]
  exact filter_eq_of_filter_ne (fun r => r.business_id) b b2 h db.hours

lemma syncHoursB_frame (b b2 : String) (h : b2 ≠ b) (values : List (List Cell)) (db : DB) :
    hoursFor b2 (syncHoursB b values db).hours = hoursFor b2 db.hours := by
  unfold syncHoursB hoursFor
  rw [hoursLoop_hours, List.filter_append]
  have h2 : ((values.drop 1).filterMap
      (fun r => if hoursRowKept r then some (hoursRowB b r) else none)).filter
        (fun r => r.business_id = b2) = [] :=
    filter_eq_nil_of_bid (fun r : HoursRow => r.business_id) b b2 h _
      (hours_filterMap_all_bid b (hoursRowB b) (fun r => rfl) (values.drop 1))
  rw [h2, List.append_nil]
  exact filter_eq_of_filter_ne (fun r => r.business_id) b b2 h db.hours

/-- C9: every sync operation invoked for business b leaves all rows of
every other business b2 in all four tables unchanged; its deletes,
inserts and upserts only reach rows with business_id = b. -/
theorem sync_frame_other_businesses (b b2 : String) (h : b2 ≠ b)
    (values : List (List Cell)) (db : DB) (sheet : String) (now : Nat) :
    (menuFor b2 (syncMenu b values db).menu_items = menuFor b2 db.menu_items
      ∧ hoursFor b2 (syncMenu b values db).hours = hoursFor b2 db.hours
      ∧ locFor b2 (syncMenu b values db).location = locFor b2 db.location
      ∧ statusFor b2 (syncMenu b values db).sync_status = statusFor b2 db.sync_status)
    ∧ (menuFor b2 (syncHoursA b values db).menu_items = menuFor b2 db.menu_items
      ∧ hoursFor b2 (syncHoursA b values db).hours = hoursFor b2 db.hours
      ∧ locFor b2 (syncHoursA b values db).location = locFor b2 db.location
      ∧ statusFor b2 (syncHoursA b values db).sync_status = statusFor b2 db.sync_status)
    ∧ (menuFor b2 (syncHoursB b values db).menu_items = menuFor b2 db.menu_items
      ∧ hoursFor b2 (syncHoursB b values db).hours = hoursFor b2 db.hours
      ∧ locFor b2 (syncHoursB b values db).location = locFor b2 db.location
      ∧ statusFor b2 (syncHoursB b values db).sync_status = statusFor b2 db.sync_status)
    ∧ (menuFor b2 (syncLocationA b values db).menu_items = menuFor b2 db.menu_items
      ∧ hoursFor b2 (syncLocationA b values db).hours = hoursFor b2 db.hours
      ∧ locFor b2 (syncLocationA b values db).location = locFor b2 db.location
      ∧ statusFor b2 (syncLocationA b values db).sync_status = statusFor b2 db.sync_status)
    ∧ (menuFor b2 (syncLocationB b values db).menu_items = menuFor b2 db.menu_items
      ∧ hoursFor b2 (syncLocationB b values db).hours = hoursFor b2 db.hours
      ∧ locFor b2 (syncLocationB b values db).location = locFor b2 db.location
      ∧ statusFor b2 (syncLocationB b values db).sync_status = statusFor b2 db.sync_status)
    ∧ (menuFor b2 (upsertStatus b sheet now db).menu_items = menuFor b2 db.menu_items
      ∧ hoursFor b2 (upsertStatus b sheet now db).hours = hoursFor b2 db.hours
      ∧ locFor b2 (upsertStatus b sheet now db).location = locFor b2 db.location
      ∧ statusFor b2 (upsertStatus b sheet now db).sync_status = statusFor b2 db.sync_status) := by
  refine ⟨⟨syncMenu_frame b b2 h values db, ?_, ?_, ?_⟩,
    ⟨?_, syncHoursA_frame b b2 h values db, ?_, ?_⟩,
    ⟨?_, syncHoursB_frame b b2 h values db, ?_, ?_⟩,
    ⟨rfl, rfl, upsertLocation_frame b b2 h _ _ db, rfl⟩,
    ⟨rfl, rfl, upsertLocation_frame b b2 h _ _ db, rfl⟩,
    ⟨rfl, rfl, rfl, upsertStatus_frame b b2 h sheet now db⟩⟩
  · rw [(syncMenu_rest b values db).1]
  · rw [(syncMenu_rest b values db).2.1]
  · rw [(syncMenu_rest b values db).2.2]
  · rw [(syncHoursA_rest b values db).1]
  · rw [(syncHoursA_rest b values db).2.1]
  · rw [(syncHoursA_rest b values db).2.2]
  · rw [(syncHoursB_rest b values db).1]
  · rw [(syncHoursB_rest b values db).2.1]
  · rw [(syncHoursB_rest b values db).2.2]

/-- Witness for C9 at two distinct business identifiers. -/
theorem sync_frame_other_businesses_witness :
    menuFor "b2" (syncMenu "b1" [] emptyDB).menu_items = menuFor "b2" emptyDB.menu_items :=
  (sync_frame_other_businesses "b1" "b2" (by decide) [] emptyDB "menu" 0).1.1

lemma upsertLocation_count (b : String) (cs nt : Option String) (db : DB)
    (hle : db.location.countP (fun r => r.business_id = b) ≤ 1) :
    (upsertLocation b cs nt db).location.countP (fun r => r.business_id = b) = 1 := by
  unfold upsertLocation
  by_cases ha : db.location.any (fun r => r.business_id = b)
  · simp only [ha, if_true]
    have hmap : (db.location.map (fun r =>
        if r.business_id = b then { r with current_spot := cs, note := nt } else r)).countP
          (fun r => r.business_id = b)
        = db.location.countP (fun r => r.business_id = b) := by
      rw [List.countP_map]
      apply List.countP_congr
      intro r _
      by_cases hb : r.business_id = b <;> simp [hb]
    rw [hmap]
    have hpos : 0 < db.location.countP (fun r => r.business_id = b) := by
      rw [List.countP_pos_iff]
      rw [List.any_eq_true] at ha
      exact ha
    omega
  · simp only [ha, Bool.false_eq_true, if_false, List.countP_append]
    have hz : db.location.countP (fun r => r.business_id = b) = 0 := by
      rw [List.countP_eq_zero]
      rw [Bool.not_eq_true, List.any_eq_false] at ha
      exact ha
    rw [hz]
    simp [List.countP_cons]

lemma upsertLocation_idem (b : String) (cs nt : Option String) (db : DB) :
    upsertLocation b cs nt (upsertLocation b cs nt db) = upsertLocation b cs nt db := by
  have hf : ∀ r : LocationRow,
      (if ((if r.business_id = b then { r with current_spot := cs, note := nt } else r) : LocationRow).business_id = b
        then { ((if r.business_id = b then { r with current_spot := cs, note := nt } else r) : LocationRow) with
                current_spot := cs, note := nt }
        else (if r.business_id = b then { r with current_spot := cs, note := nt } else r))
      = (if r.business_id = b then { r with current_spot := cs, note := nt } else r) := by
    intro r
    by_cases hb : r.business_id = b <;> simp [hb]
  unfold upsertLocation
  by_cases ha : db.location.any (fun r => r.business_id = b)
  · simp only [ha, if_true]
    rw [List.any_eq_true] at ha
    obtain ⟨r0, hr0, hb0⟩ := ha
    have hany : ((db.location.map (fun r =>
        if r.business_id = b then { r with current_spot := cs, note := nt } else r)).any
          (fun r => r.business_id = b)) = true := by
      rw [List.any_eq_true]
      refine ⟨if r0.business_id = b then { r0 with current_spot := cs, note := nt } else r0,
        List.mem_map_of_mem _ hr0, ?_⟩
      simp at hb0
      simp [hb0]
    simp only [hany, if_true, List.map_map]
    congr 1
    apply List.map_congr_left
    intro a _
    exact hf a
  · simp only [ha, Bool.false_eq_true, if_false]
    have hany : ((db.location ++ [(⟨b, cs, nt⟩ : LocationRow)]).any
        (fun r => r.business_id = b)) = true := by
      rw [List.any_eq_true]
      exact ⟨⟨b, cs, nt⟩, List.mem_append_right _ (List.mem_singleton_self _), by simp⟩
    simp only [hany, if_true, List.map_append]
    have hid : ∀ a ∈ db.location,
        (if a.business_id = b then ({ a with current_spot := cs, note := nt } : LocationRow) else a) = a := by
      intro a hamem
      rw [Bool.not_eq_true, List.any_eq_false] at ha
      have := ha a hamem
      simp at this
      simp [this]
    rw [List.map_congr_left hid]
    simp

/-- C6: location sync is idempotent in both variants: under the unique
business_id constraint (at most one prior row for the business), syncing
the same payload twice gives the same store as syncing it once, and the
business ends with exactly one location row. -/
theorem location_sync_idempotent (b : String) (values : List (List Cell)) (db : DB)
    (hle : db.location.countP (fun r => r.business_id = b) ≤ 1) :
    (syncLocationA b values (syncLocationA b values db) = syncLocationA b values db
      ∧ (syncLocationA b values db).location.countP (fun r => r.business_id = b) = 1)
    ∧ (syncLocationB b values (syncLocationB b values db) = syncLocationB b values db
      ∧ (syncLocationB b values db).location.countP (fun r => r.business_id = b) = 1) :=
  ⟨⟨upsertLocation_idem b (locFieldsA values).1 (locFieldsA values).2 db,
      upsertLocation_count b (locFieldsA values).1 (locFieldsA values).2 db hle⟩,
    ⟨upsertLocation_idem b (locFieldsB values).1 (locFieldsB values).2 db,
      upsertLocation_count b (locFieldsB values).1 (locFieldsB values).2 db hle⟩⟩

/-- Witness for C6 on the empty store. -/
theorem location_sync_idempotent_witness :
    (syncLocationB "b" [[], []] emptyDB).location.countP (fun r => r.business_id = "b") = 1 :=
  (location_sync_idempotent "b" [[], []] emptyDB (by decide)).2.2

lemma locFieldsB_no_note (rows : List (List Cell)) :
    ∀ acc : Option String × Option String,
      (∀ r ∈ rows, jsTrim (jsString (truthyOr (r.getD 0 Cell.null) (Cell.str ""))) ≠ "note") →
      (rows.foldl
        (fun acc r =>
          let label := jsTrim (jsString (truthyOr (r.getD 0 Cell.null) (Cell.str "")))
          let value := jsTrim (jsString (truthyOr (r.getD 1 Cell.null) (Cell.str "")))
          let acc1 := if label = "current_spot" then (some value, acc.2) else acc
          if label = "note" then (acc1.1, some value) else acc1) acc).2 = acc.2 := by
  induction rows with
  | nil => intro acc _ ; rfl
  | cons r rest ih =>
    intro acc hno
    have hr : jsTrim (jsString (truthyOr (r.getD 0 Cell.null) (Cell.str ""))) ≠ "note" :=
      hno r (List.mem_cons_self r rest)
    rw [List.foldl_cons]
    rw [ih _ (fun x hx => hno x (List.mem_cons_of_mem r hx))]
    simp only [hr, if_false]
    by_cases hcs : jsTrim (jsString (truthyOr (r.getD 0 Cell.null) (Cell.str ""))) = "current_spot" <;>
      simp only [List.getD_eq_getElem?_getD] at hcs <;> simp [hcs]

/-- Counterexample for C10: with a prior row whose note is "old", a
variant B payload supplying the note label with an empty value stores
the empty string for note, not null, so "supplies an empty value for it
overwrites the stored field with null" fails on the code. -/
theorem location_empty_value_stored_as_empty_string :
    locFor "b" (syncLocationB "b"
        [[Cell.str "label", Cell.str "value"], [Cell.str "note", Cell.str ""]]
        ⟨[], [], [⟨"b", some "spot", some "old"⟩], []⟩).location
      = [⟨"b", none, some ""⟩] := by decide

/-- C10 amended: the location upsert always writes both fields from the
current payload, never preserving prior values; a payload omitting the
note label yields null for note, and in the header-mapped variant an
empty note value also yields null, while the label/value variant stores
the empty string for an empty supplied value. -/
theorem location_upsert_overwrites_fields :
    (∀ (b : String) (values : List (List Cell)) (db : DB),
        ∀ r ∈ (syncLocationB b values db).location, r.business_id = b →
          r.current_spot = (locFieldsB values).1 ∧ r.note = (locFieldsB values).2)
    ∧ (∀ (b : String) (values : List (List Cell)) (db : DB),
        ∀ r ∈ (syncLocationA b values db).location, r.business_id = b →
          r.current_spot = (locFieldsA values).1 ∧ r.note = (locFieldsA values).2)
    ∧ (∀ values : List (List Cell),
        (∀ r ∈ values.drop 1, jsTrim (jsString (truthyOr (r.getD 0 Cell.null) (Cell.str ""))) ≠ "note")
        → (locFieldsB values).2 = none)
    ∧ (∀ values : List (List Cell),
        lookupLast "note" (locMapA (values.getD 0 []) (values.getD 1 [])) = some ""
        → (locFieldsA values).2 = none) := by
  refine ⟨fun b values db => upsertLocation_fields b _ _ db,
    fun b values db => upsertLocation_fields b _ _ db, ?_, ?_⟩
  · intro values hno
    exact locFieldsB_no_note (values.drop 1) (none, none) hno
  · intro values hl
    show orNull (lookupLast "note" (locMapA (values.getD 0 []) (values.getD 1 []))) = none
    rw [hl]
    rfl

/-- Witness for C10: a payload without a note label nulls a previously
set note. -/
theorem location_upsert_overwrites_fields_witness :
    (⟨"b", some "X", none⟩ : LocationRow).note
      = (locFieldsB [[], [Cell.str "current_spot", Cell.str "X"]]).2 :=
  (location_upsert_overwrites_fields.1 "b" [[], [Cell.str "current_spot", Cell.str "X"]]
    ⟨[], [], [⟨"b", some "s", some "n"⟩], []⟩ ⟨"b", some "X", none⟩ (by decide) rfl).2

/-- C8: GET /business/:id/menu answers 200 with the business's menu rows,
a permutation of the stored rows for that business sorted ascending by
numeric id, and a business with no rows gets the empty menu list, not an
error. -/
theorem menu_endpoint_sorted (b : String) (db : DB) :
    (getBusinessMenu b db).status = 200
    ∧ (getBusinessMenu b db).business_id = b
    ∧ (getBusinessMenu b db).menu.Perm (menuFor b db.menu_items)
    ∧ List.Sorted menuLE (getBusinessMenu b db).menu
    ∧ (menuFor b db.menu_items = [] → getBusinessMenu b db = ⟨b, [], 200⟩) := by
  refine ⟨rfl, rfl, List.perm_insertionSort menuLE _, List.sorted_insertionSort menuLE _, ?_⟩
  intro h
  unfold getBusinessMenu
  rw [h]
  rfl

/-- Witness for C8 on the empty store. -/
theorem menu_endpoint_sorted_witness :
    getBusinessMenu "nobody" emptyDB = ⟨"nobody", [], 200⟩ :=
  (menu_endpoint_sorted "nobody" emptyDB).2.2.2.2 rfl

lemma syncHoursA_hoursFor (b : String) (values : List (List Cell)) (db : DB) :
    hoursFor b (syncHoursA b values db).hours
      = (values.drop 1).filterMap
          (fun r => if hoursRowKept r then some (hoursRowA b r) else none) := by
  unfold syncHoursA hoursFor
  rw [hoursLoop_hours, List.filter_append]
  have h1 : ((deleteHours b db).hours.filter (fun r => r.business_id = b)) = [] :=
    filter_ne_then_eq (fun r : HoursRow => r.business_id) b db.hours
  rw [h1, List.nil_append, List.filter_eq_self.mpr]
  intro a ha
  exact decide_eq_true
    (hours_filterMap_all_bid b (hoursRowA b) (fun r => rfl) (values.drop 1) a ha)

/-- Counterexample for C5: the raw-storing hours writer (variant B)
stores the input string 11:00:00 unchanged instead of 11:00, and even
the normalizer truncates a one-digit-hour seconds string to its first
five characters, yielding 9:30: with a trailing colon, which is not a
normalized time-of-day string. -/
theorem hours_raw_variant_stores_unnormalized :
    hoursFor "b" (syncHoursB "b"
        [[Cell.str "day"], [Cell.str "Mon", Cell.str "11:00:00", Cell.str ""]] emptyDB).hours
      = [⟨"b", "Mon", some (Cell.str "11:00:00"), none⟩]
    ∧ normalizeSheetTime (Cell.str "9:30:00") = some "9:30:" := by decide

/-- C5 amended: in the normalizing hours writer (variant A) the stored
open and close values are the outputs of normalizeSheetTime: 11:00:00
normalizes to 11:00, the empty string to null, a date cell carrying
5:00 to 05:00, and any non-date value that is neither a date-parseable
string nor an H:MM(:SS) pattern to null, never an error; values that do
match the time pattern are truncated to their first five characters
(so a one-digit hour with seconds keeps a trailing colon); the other
variant stores the raw truthy cell unchanged. -/
theorem hours_normalizing_contract :
    normalizeSheetTime (Cell.str "11:00:00") = some "11:00"
    ∧ normalizeSheetTime (Cell.str "") = none
    ∧ normalizeSheetTime (Cell.date 5 0) = some "05:00"
    ∧ (∀ v : Cell, (∀ h m : Nat, v ≠ Cell.date h m) →
        isoUTC (jsTrim (jsString v)) = none → timePat (jsTrim (jsString v)) = false →
        normalizeSheetTime v = none)
    ∧ (∀ (b : String) (values : List (List Cell)) (db : DB),
        hoursFor b (syncHoursA b values db).hours
          = (values.drop 1).filterMap
              (fun r => if hoursRowKept r then some (hoursRowA b r) else none)) := by
  refine ⟨by decide, rfl, by decide, ?_, syncHoursA_hoursFor⟩
  intro v hd hiso htime
  cases v with
  | date h m => exact absurd rfl (hd h m)
  | null => rfl
  | str s =>
    by_cases hs : s = ""
    · rw [hs]
      rfl
    · simp only [jsString] at hiso htime
      simp [normalizeSheetTime, jsString, hs, hiso, htime]
  | num q =>
    simp only [jsString] at hiso htime
    simp [normalizeSheetTime, jsString, hiso, htime]
  | bool b =>
    cases b <;> simp only [jsString] at hiso htime <;>
      simp [normalizeSheetTime, jsString, hiso, htime]

/-- Witness for C5 at a string matching no recognized shape. -/
theorem hours_normalizing_contract_witness :
    normalizeSheetTime (Cell.str "Monday") = none :=
  hours_normalizing_contract.2.2.2.1 (Cell.str "Monday")
    (fun h m hc => Cell.noConfusion hc) (by decide) (by decide)

/-! ## Helper lemmas: event traces of the instrumented runs -/

lemma query_events (u : Nat → DB → DB) (s : St) :
    (query u s).2.events = s.events ++ [Ev.query] := by
  unfold query
  split <;> rfl

lemma query_sync_status (u : Nat → DB → DB) (s : St)
    (hu : ∀ n db, (u n db).sync_status = db.sync_status) :
    (query u s).2.db.sync_status = s.db.sync_status := by
  unfold query
  split
  · rfl
  · exact hu s.now s.db

lemma syncMenuRowsM_spec (b : String) (rows : List (List Cell)) :
    ∀ s : St,
      (∃ k, (syncMenuRowsM b rows s).2.events = s.events ++ List.replicate k Ev.query)
      ∧ (syncMenuRowsM b rows s).2.db.sync_status = s.db.sync_status := by
  induction rows with
  | nil =>
    intro s
    exact ⟨⟨0, by simp [syncMenuRowsM]⟩, rfl⟩
  | cons r rest ih =>
    intro s
    unfold syncMenuRowsM
    by_cases hk : menuRowKept r
    · simp only [hk, if_true]
      rcases hq : query (fun _ db => insertMenuRow b r db) s with ⟨tr, s1⟩
      have he1 : s1.events = s.events ++ [Ev.query] := by
        have := query_events (fun _ db => insertMenuRow b r db) s
        rw [hq] at this
        exact this
      have hs1 : s1.db.sync_status = s.db.sync_status := by
        have := query_sync_status (fun _ db => insertMenuRow b r db) s (fun n db => rfl)
        rw [hq] at this
        exact this
      cases tr with
      | none =>
        exact ⟨⟨1, by rw [he1] ; rfl⟩, hs1⟩
      | some u =>
        obtain ⟨⟨k, hk2⟩, hst⟩ := ih s1
        refine ⟨⟨k + 1, ?_⟩, by rw [hst, hs1]⟩
        rw [hk2, he1, List.append_assoc]
        rfl
    · simp only [hk, Bool.false_eq_true, if_false]
      exact ih s

lemma syncMenuM_spec (b : String) (values : List (List Cell)) (s : St) :
    (∃ k, (syncMenuM b values s).2.events = s.events ++ List.replicate k Ev.query)
    ∧ (syncMenuM b values s).2.db.sync_status = s.db.sync_status := by
  unfold syncMenuM
  rcases hq : query (fun _ db => deleteMenu b db) s with ⟨tr, s1⟩
  have he1 : s1.events = s.events ++ [Ev.query] := by
    have := query_events (fun _ db => deleteMenu b db) s
    rw [hq] at this
    exact this
  have hs1 : s1.db.sync_status = s.db.sync_status := by
    have := query_sync_status (fun _ db => deleteMenu b db) s (fun n db => rfl)
    rw [hq] at this
    exact this
  cases tr with
  | none =>
    exact ⟨⟨1, by rw [he1] ; rfl⟩, hs1⟩
  | some u =>
    obtain ⟨⟨k, hk2⟩, hst⟩ := syncMenuRowsM_spec b (values.drop 1) s1
    refine ⟨⟨k + 1, ?_⟩, by rw [hst, hs1]⟩
    rw [hk2, he1, List.append_assoc]
    rfl

lemma syncHoursRowsM_spec (mk : List Cell → HoursRow) (rows : List (List Cell)) :
    ∀ s : St,
      (∃ k, (syncHoursRowsM mk rows s).2.events = s.events ++ List.replicate k Ev.query)
      ∧ (syncHoursRowsM mk rows s).2.db.sync_status = s.db.sync_status := by
  induction rows with
  | nil =>
    intro s
    exact ⟨⟨0, by simp [syncHoursRowsM]⟩, rfl⟩
  | cons r rest ih =>
    intro s
    unfold syncHoursRowsM
    by_cases hk : hoursRowKept r
    · simp only [hk, if_true]
      rcases hq : query (fun _ db => { db with hours := db.hours ++ [mk r] }) s with ⟨tr, s1⟩
      have he1 : s1.events = s.events ++ [Ev.query] := by
        have := query_events (fun _ db => { db with hours := db.hours ++ [mk r] }) s
        rw [hq] at this
        exact this
      have hs1 : s1.db.sync_status = s.db.sync_status := by
        have := query_sync_status (fun _ db => { db with hours := db.hours ++ [mk r] }) s
          (fun n db => rfl)
        rw [hq] at this
        exact this
      cases tr with
      | none =>
        exact ⟨⟨1, by rw [he1] ; rfl⟩, hs1⟩
      | some u =>
        obtain ⟨⟨k, hk2⟩, hst⟩ := ih s1
        refine ⟨⟨k + 1, ?_⟩, by rw [hst, hs1]⟩
        rw [hk2, he1, List.append_assoc]
        rfl
    · simp only [hk, Bool.false_eq_true, if_false]
      exact ih s

lemma syncHoursBM_spec (b : String) (values : List (List Cell)) (s : St) :
    (∃ k, (syncHoursBM b values s).2.events = s.events ++ List.replicate k Ev.query)
    ∧ (syncHoursBM b values s).2.db.sync_status = s.db.sync_status := by
  unfold syncHoursBM
  rcases hq : query (fun _ db => deleteHours b db) s with ⟨tr, s1⟩
  have he1 : s1.events = s.events ++ [Ev.query] := by
    have := query_events (fun _ db => deleteHours b db) s
    rw [hq] at this
    exact this
  have hs1 : s1.db.sync_status = s.db.sync_status := by
    have := query_sync_status (fun _ db => deleteHours b db) s (fun n db => rfl)
    rw [hq] at this
    exact this
  cases tr with
  | none =>
    exact ⟨⟨1, by rw [he1] ; rfl⟩, hs1⟩
  | some u =>
    obtain ⟨⟨k, hk2⟩, hst⟩ := syncHoursRowsM_spec (hoursRowB b) (values.drop 1) s1
    refine ⟨⟨k + 1, ?_⟩, by rw [hst, hs1]⟩
    rw [hk2, he1, List.append_assoc]
    rfl

lemma syncLocationBM_spec (b : String) (values : List (List Cell)) (s : St) :
    (∃ k, (syncLocationBM b values s).2.events = s.events ++ List.replicate k Ev.query)
    ∧ (syncLocationBM b values s).2.db.sync_status = s.db.sync_status := by
  unfold syncLocationBM
  refine ⟨⟨1, by rw [query_events] ; rfl⟩, ?_⟩
  exact query_sync_status _ s (fun n db => rfl)

lemma runTryB_spec (t : St → Option Unit × St) (b sheet : String)
    (ht : ∀ s : St, ∃ k, (t s).2.events = s.events ++ List.replicate k Ev.query)
    (hstat : ∀ s : St, (t s).2.db.sync_status = s.db.sync_status) (s0 : St) :
    ∃ k code body,
      (runTryB t b sheet s0).2.events
        = s0.events ++ (List.replicate k Ev.query ++ [Ev.respond code body])
      ∧ ((t s0).1.isSome ∧ (statusUpsertM b sheet (t s0).2).1.isSome →
          code = 200 ∧ body = RBody.ok)
      ∧ (¬ ((t s0).1.isSome ∧ (statusUpsertM b sheet (t s0).2).1.isSome) →
          code = 500 ∧ body = RBody.syncFailed)
      ∧ ((t s0).1 = none →
          (runTryB t b sheet s0).2.db.sync_status = s0.db.sync_status) := by
  rcases h : t s0 with ⟨tr, s1⟩
  obtain ⟨k, hk⟩ := ht s0
  rw [h] at hk
  have hst : s1.db.sync_status = s0.db.sync_status := by
    have := hstat s0
    rw [h] at this
    exact this
  cases tr with
  | none =>
    have hrun : runTryB t b sheet s0 = respond 500 RBody.syncFailed s1 := by
      simp only [runTryB, h]
    refine ⟨k, 500, RBody.syncFailed, ?_, ?_, fun _ => ⟨rfl, rfl⟩, fun _ => ?_⟩
    · rw [hrun]
      show s1.events ++ [Ev.respond 500 RBody.syncFailed]
        = s0.events ++ (List.replicate k Ev.query ++ [Ev.respond 500 RBody.syncFailed])
      rw [hk, List.append_assoc]
    · intro hc
      exact absurd hc.1 (by simp)
    · rw [hrun]
      exact hst
  | some u =>
    rcases h2 : statusUpsertM b sheet s1 with ⟨sr, s2⟩
    have he2 : s2.events = s1.events ++ [Ev.query] := by
      have := query_events (fun now db => upsertStatus b sheet now db) s1
      rw [show query (fun now db => upsertStatus b sheet now db) s1 = (sr, s2) from h2] at this
      exact this
    have hrepl : s2.events = s0.events ++ List.replicate (k + 1) Ev.query := by
      rw [he2, hk, List.append_assoc, List.replicate_succ']
    cases sr with
    | none =>
      have hrun : runTryB t b sheet s0 = respond 500 RBody.syncFailed s2 := by
        simp only [runTryB, h, h2]
      refine ⟨k + 1, 500, RBody.syncFailed, ?_, ?_, fun _ => ⟨rfl, rfl⟩, fun hc => ?_⟩
      · rw [hrun]
        show s2.events ++ [Ev.respond 500 RBody.syncFailed]
          = s0.events ++ (List.replicate (k + 1) Ev.query ++ [Ev.respond 500 RBody.syncFailed])
        rw [hrepl, List.append_assoc]
      · intro hc
        exact absurd hc.2 (by simp)
      · exact absurd hc (by simp)
    | some v =>
      have hrun : runTryB t b sheet s0 = respond 200 RBody.ok s2 := by
        simp only [runTryB, h, h2]
      refine ⟨k + 1, 200, RBody.ok, ?_, fun _ => ⟨rfl, rfl⟩, ?_, fun hc => ?_⟩
      · rw [hrun]
        show s2.events ++ [Ev.respond 200 RBody.ok]
          = s0.events ++ (List.replicate (k + 1) Ev.query ++ [Ev.respond 200 RBody.ok])
        rw [hrepl, List.append_assoc]
      · intro hc
        exact absurd ⟨by simp, by simp⟩ hc
      · exact absurd hc (by simp)

lemma awaited_case (tm : St → Option Unit × St) (b sheet : String)
    (hspec : ∀ s : St,
      (∃ k, (tm s).2.events = s.events ++ List.replicate k Ev.query)
      ∧ (tm s).2.db.sync_status = s.db.sync_status)
    (db : DB) (failAt : Option Nat) (now : Nat) (out : Option Unit × St)
    (hred : out = runTryB tm b sheet ⟨db, [], 0, failAt, now⟩) :
    ∃ k code body,
      out.2.events = List.replicate k Ev.query ++ [Ev.respond code body]
      ∧ ((tm ⟨db, [], 0, failAt, now⟩).1.isSome
          ∧ (statusUpsertM b sheet (tm ⟨db, [], 0, failAt, now⟩).2).1.isSome →
          code = 200 ∧ body = RBody.ok)
      ∧ (¬ ((tm ⟨db, [], 0, failAt, now⟩).1.isSome
          ∧ (statusUpsertM b sheet (tm ⟨db, [], 0, failAt, now⟩).2).1.isSome) →
          code = 500 ∧ body = RBody.syncFailed)
      ∧ ((tm ⟨db, [], 0, failAt, now⟩).1 = none →
          out.2.db.sync_status = db.sync_status) := by
  obtain ⟨k, code, body, hev, hok, hfail, hstat2⟩ :=
    runTryB_spec tm b sheet (fun s => (hspec s).1) (fun s => (hspec s).2)
      ⟨db, [], 0, failAt, now⟩
  refine ⟨k, code, body, ?_, hok, hfail, ?_⟩
  · rw [hred, hev]
    rfl
  · intro hc
    rw [hred]
    exact hstat2 hc

/-- Counterexample for C2: the fire-and-forget variant of POST /sync
responds 200 with status accepted before any database query runs, so its
HTTP response neither follows the write nor reflects its outcome. -/
theorem sync_fireforget_responds_before_write :
    (handleSyncA (some "k") ⟨some "k", "b", "menu", some [[], []]⟩
        ⟨emptyDB, [], 0, none, 0⟩).2.events
      = [Ev.respond 200 RBody.accepted, Ev.query, Ev.query] := by decide

/-- C2 amended: in the awaited variant of POST /sync, for every
authorized well-formed request the response event comes after every
query event and reflects the outcome of the run: 200 with status ok
exactly when the transform and the status upsert both succeed, 500 with
a sync-failed error otherwise; and when the transform throws, the
sync_status table keeps its prior rows (the fire-and-forget variant
instead responds 200 accepted before the writes). -/
theorem sync_awaited_response_after_write (envKey : Option String) (req : SyncReq)
    (vs : List (List Cell)) (db : DB) (failAt : Option Nat) (now : Nat)
    (hauth : requireSyncKey envKey req.syncKeyHeader = none)
    (hbid : req.business_id ≠ "") (hvals : req.values = some vs)
    (hsheet : req.sheet = "menu" ∨ req.sheet = "hours" ∨ req.sheet = "location") :
    ∃ k code body,
      (handleSyncB envKey req ⟨db, [], 0, failAt, now⟩).2.events
        = List.replicate k Ev.query ++ [Ev.respond code body]
      ∧ ((transformBFor req.sheet req.business_id vs ⟨db, [], 0, failAt, now⟩).1.isSome
          ∧ (statusUpsertM req.business_id req.sheet
              (transformBFor req.sheet req.business_id vs ⟨db, [], 0, failAt, now⟩).2).1.isSome →
          code = 200 ∧ body = RBody.ok)
      ∧ (¬ ((transformBFor req.sheet req.business_id vs ⟨db, [], 0, failAt, now⟩).1.isSome
          ∧ (statusUpsertM req.business_id req.sheet
              (transformBFor req.sheet req.business_id vs ⟨db, [], 0, failAt, now⟩).2).1.isSome) →
          code = 500 ∧ body = RBody.syncFailed)
      ∧ ((transformBFor req.sheet req.business_id vs ⟨db, [], 0, failAt, now⟩).1 = none →
          (handleSyncB envKey req ⟨db, [], 0, failAt, now⟩).2.db.sync_status
            = db.sync_status) := by
  rcases hsheet with hs | hs | hs
  · have htf : transformBFor req.sheet req.business_id vs = syncMenuM req.business_id vs := by
      simp [transformBFor, hs]
    have hred : handleSyncB envKey req ⟨db, [], 0, failAt, now⟩
        = runTryB (syncMenuM req.business_id vs) req.business_id req.sheet
            ⟨db, [], 0, failAt, now⟩ := by
      simp only [handleSyncB, hauth, hs, hvals]
      rw [if_neg (by simp [hbid])]
      simp
    rw [htf]
    exact awaited_case (syncMenuM req.business_id vs) req.business_id req.sheet
      (syncMenuM_spec req.business_id vs) db failAt now _ hred
  · have htf : transformBFor req.sheet req.business_id vs = syncHoursBM req.business_id vs := by
      simp [transformBFor, hs]
    have hred : handleSyncB envKey req ⟨db, [], 0, failAt, now⟩
        = runTryB (syncHoursBM req.business_id vs) req.business_id req.sheet
            ⟨db, [], 0, failAt, now⟩ := by
      simp only [handleSyncB, hauth, hs, hvals]
      rw [if_neg (by simp [hbid])]
      simp
    rw [htf]
    exact awaited_case (syncHoursBM req.business_id vs) req.business_id req.sheet
      (syncHoursBM_spec req.business_id vs) db failAt now _ hred
  · have htf : transformBFor req.sheet req.business_id vs
        = syncLocationBM req.business_id vs := by
      simp [transformBFor, hs]
    have hred : handleSyncB envKey req ⟨db, [], 0, failAt, now⟩
        = runTryB (syncLocationBM req.business_id vs) req.business_id req.sheet
            ⟨db, [], 0, failAt, now⟩ := by
      simp only [handleSyncB, hauth, hs, hvals]
      rw [if_neg (by simp [hbid])]
      simp
    rw [htf]
    exact awaited_case (syncLocationBM req.business_id vs) req.business_id req.sheet
      (syncLocationBM_spec req.business_id vs) db failAt now _ hred

/-- Witness for C2 at a concrete authorized menu request. -/
theorem sync_awaited_response_after_write_witness :
    ∃ k code body,
      (handleSyncB (some "k") ⟨some "k", "b", "menu", some [[], []]⟩
          ⟨emptyDB, [], 0, none, 0⟩).2.events
        = List.replicate k Ev.query ++ [Ev.respond code body]
      ∧ ((transformBFor "menu" "b" [[], []] ⟨emptyDB, [], 0, none, 0⟩).1.isSome
          ∧ (statusUpsertM "b" "menu"
              (transformBFor "menu" "b" [[], []] ⟨emptyDB, [], 0, none, 0⟩).2).1.isSome →
          code = 200 ∧ body = RBody.ok)
      ∧ (¬ ((transformBFor "menu" "b" [[], []] ⟨emptyDB, [], 0, none, 0⟩).1.isSome
          ∧ (statusUpsertM "b" "menu"
              (transformBFor "menu" "b" [[], []] ⟨emptyDB, [], 0, none, 0⟩).2).1.isSome) →
          code = 500 ∧ body = RBody.syncFailed)
      ∧ ((transformBFor "menu" "b" [[], []] ⟨emptyDB, [], 0, none, 0⟩).1 = none →
          (handleSyncB (some "k") ⟨some "k", "b", "menu", some [[], []]⟩
              ⟨emptyDB, [], 0, none, 0⟩).2.db.sync_status = emptyDB.sync_status) :=
  sync_awaited_response_after_write (some "k") ⟨some "k", "b", "menu", some [[], []]⟩
    [[], []] emptyDB none 0 (by decide) (by decide) rfl (Or.inl rfl)

/-- C3: the shared-secret check, identical in both handlers: an unset or
blank configured secret yields a 500 server-configuration rejection, a
missing or mismatching trimmed x-sync-key header a 401 rejection, and in
both cases the handler sends only that response, runs no query and
leaves every table untouched. -/
theorem sync_auth_rejects_without_mutation (envKey : Option String) (req : SyncReq)
    (db : DB) (failAt : Option Nat) (now : Nat) :
    (jsTrim (envKey.getD "") = "" →
      (handleSyncA envKey req ⟨db, [], 0, failAt, now⟩).2.db = db
      ∧ (handleSyncA envKey req ⟨db, [], 0, failAt, now⟩).2.events
          = [Ev.respond 500 RBody.missingKey]
      ∧ (handleSyncB envKey req ⟨db, [], 0, failAt, now⟩).2.db = db
      ∧ (handleSyncB envKey req ⟨db, [], 0, failAt, now⟩).2.events
          = [Ev.respond 500 RBody.missingKey])
    ∧ (jsTrim (envKey.getD "") ≠ "" →
        jsTrim (req.syncKeyHeader.getD "") ≠ jsTrim (envKey.getD "") →
      (handleSyncA envKey req ⟨db, [], 0, failAt, now⟩).2.db = db
      ∧ (handleSyncA envKey req ⟨db, [], 0, failAt, now⟩).2.events
          = [Ev.respond 401 RBody.unauthorized]
      ∧ (handleSyncB envKey req ⟨db, [], 0, failAt, now⟩).2.db = db
      ∧ (handleSyncB envKey req ⟨db, [], 0, failAt, now⟩).2.events
          = [Ev.respond 401 RBody.unauthorized]) := by
  constructor
  · intro h1
    have hkey : requireSyncKey envKey req.syncKeyHeader = some (500, RBody.missingKey) := by
      unfold requireSyncKey
      simp [h1]
    have ha : handleSyncA envKey req ⟨db, [], 0, failAt, now⟩
        = respond 500 RBody.missingKey ⟨db, [], 0, failAt, now⟩ := by
      simp only [handleSyncA, hkey]
    have hb : handleSyncB envKey req ⟨db, [], 0, failAt, now⟩
        = respond 500 RBody.missingKey ⟨db, [], 0, failAt, now⟩ := by
      simp only [handleSyncB, hkey]
    rw [ha, hb]
    exact ⟨rfl, rfl, rfl, rfl⟩
  · intro h1 h2
    have hkey : requireSyncKey envKey req.syncKeyHeader = some (401, RBody.unauthorized) := by
      unfold requireSyncKey
      rw [if_neg h1, if_pos h2]
    have ha : handleSyncA envKey req ⟨db, [], 0, failAt, now⟩
        = respond 401 RBody.unauthorized ⟨db, [], 0, failAt, now⟩ := by
      simp only [handleSyncA, hkey]
    have hb : handleSyncB envKey req ⟨db, [], 0, failAt, now⟩
        = respond 401 RBody.unauthorized ⟨db, [], 0, failAt, now⟩ := by
      simp only [handleSyncB, hkey]
    rw [ha, hb]
    exact ⟨rfl, rfl, rfl, rfl⟩

/-- Witness for C3 at a mismatching incoming key. -/
theorem sync_auth_rejects_without_mutation_witness :
    (handleSyncB (some "secret") ⟨some "wrong", "b", "menu", some []⟩
        ⟨emptyDB, [], 0, none, 0⟩).2.events = [Ev.respond 401 RBody.unauthorized] :=
  ((sync_auth_rejects_without_mutation (some "secret")
      ⟨some "wrong", "b", "menu", some []⟩ emptyDB none 0).2
    (by decide) (by decide)).2.2.2

/-- Counterexample for C4: on an authorized request with an unrecognized
sheet name the fire-and-forget handler answers 200 with status accepted,
not a 400 bad-request, while writing nothing. -/
theorem unknown_sheet_fireforget_responds_ok :
    (handleSyncA (some "k") ⟨some "k", "b", "bogus", some []⟩
        ⟨emptyDB, [], 0, none, 0⟩).2.events = [Ev.respond 200 RBody.accepted]
    ∧ (handleSyncA (some "k") ⟨some "k", "b", "bogus", some []⟩
        ⟨emptyDB, [], 0, none, 0⟩).2.db = emptyDB := by decide

/-- C4 amended: an authorized, well-formed sync request with a sheet
name other than menu, hours and location performs no write in either
handler; the awaited handler answers 400 unknown-sheet, while the
fire-and-forget handler answers 200 accepted and silently skips the
work. -/
theorem unknown_sheet_no_writes (envKey : Option String) (req : SyncReq)
    (vs : List (List Cell)) (db : DB) (failAt : Option Nat) (now : Nat)
    (hauth : requireSyncKey envKey req.syncKeyHeader = none)
    (hbid : req.business_id ≠ "") (hvals : req.values = some vs)
    (hm : req.sheet ≠ "menu") (hh : req.sheet ≠ "hours") (hl : req.sheet ≠ "location")
    (hs : req.sheet ≠ "") :
    (handleSyncB envKey req ⟨db, [], 0, failAt, now⟩).2.events
        = [Ev.respond 400 RBody.unknownSheet]
    ∧ (handleSyncB envKey req ⟨db, [], 0, failAt, now⟩).2.db = db
    ∧ (handleSyncA envKey req ⟨db, [], 0, failAt, now⟩).2.events
        = [Ev.respond 200 RBody.accepted]
    ∧ (handleSyncA envKey req ⟨db, [], 0, failAt, now⟩).2.db = db := by
  have hb : handleSyncB envKey req ⟨db, [], 0, failAt, now⟩
      = respond 400 RBody.unknownSheet ⟨db, [], 0, failAt, now⟩ := by
    simp only [handleSyncB, hauth]
    rw [if_neg (by simp [hbid, hs, hvals]), if_neg hm, if_neg hh, if_neg hl]
  have ha : handleSyncA envKey req ⟨db, [], 0, failAt, now⟩
      = syncWorkA req.business_id req.sheet (req.values.getD [])
          (respond 200 RBody.accepted ⟨db, [], 0, failAt, now⟩).2 := by
    simp only [handleSyncA, hauth]
    rw [if_neg (by simp [hbid, hs, hvals])]
  have hwork : syncWorkA req.business_id req.sheet (req.values.getD [])
      (respond 200 RBody.accepted ⟨db, [], 0, failAt, now⟩).2
      = (some (), (respond 200 RBody.accepted ⟨db, [], 0, failAt, now⟩).2) := by
    unfold syncWorkA
    rw [if_neg hm, if_neg hh, if_neg hl]
  rw [hb, ha, hwork]
  exact ⟨rfl, rfl, rfl, rfl⟩

/-- Witness for C4 at a concrete unrecognized sheet name. -/
theorem unknown_sheet_no_writes_witness :
    (handleSyncB (some "k") ⟨some "k", "b", "bogus", some []⟩
        ⟨emptyDB, [], 0, none, 0⟩).2.events = [Ev.respond 400 RBody.unknownSheet] :=
  (unknown_sheet_no_writes (some "k") ⟨some "k", "b", "bogus", some []⟩ [] emptyDB none 0
    (by decide) (by decide) rfl (by decide) (by decide) (by decide) (by decide)).1
